import Mathlib

/-!
A shallow embedding of the trust-verification core of the `dsba-pdp`
repository: the iShare trusted-participant repository (CA-fingerprint
trust store with a remote party fallback and a periodic trusted-list
refresh) and the customer-credential role-claim verifier.

Machine words are modelled as `Nat` with explicit reduction modulo `2^32`
where the Go code relies on 32-bit wraparound (inside SHA-256); byte
strings are `List Nat` with every byte `< 256`; fallible external calls
are oracles returning `Option`/pair-with-error values, mirroring Go's
`(value, err)` convention.
-/

namespace DsbaPdp

/-! ## SHA-256 (Go `crypto/sha256.Sum256`, FIPS 180-4)

`buildCertificateFingerprint` hashes the certificate's raw bytes with the
standard-library SHA-256.  The algorithm is embedded here over `Nat`,
with 32-bit wraparound written as `% 2 ^ 32`. -/

/-- Reduce modulo `2 ^ 32`: Go's implicit `uint32` wraparound. -/
def w32 (x : Nat) : Nat := x % 4294967296

/-- Right rotation of a 32-bit word by `n` places. -/
def rotr32 (n x : Nat) : Nat := w32 ((x >>> n) ||| (x <<< (32 - n)))

/-- FIPS 180-4 `Ch(x,y,z)`; the 32-bit complement of `x` is `x XOR (2^32-1)`. -/
def ch (x y z : Nat) : Nat := (x &&& y) ^^^ ((x ^^^ 4294967295) &&& z)

/-- FIPS 180-4 `Maj(x,y,z)`. -/
def maj (x y z : Nat) : Nat := (x &&& y) ^^^ (x &&& z) ^^^ (y &&& z)

/-- FIPS 180-4 `Σ0`. -/
def bigSigma0 (x : Nat) : Nat := rotr32 2 x ^^^ rotr32 13 x ^^^ rotr32 22 x

/-- FIPS 180-4 `Σ1`. -/
def bigSigma1 (x : Nat) : Nat := rotr32 6 x ^^^ rotr32 11 x ^^^ rotr32 25 x

/-- FIPS 180-4 `σ0`. -/
def smallSigma0 (x : Nat) : Nat := rotr32 7 x ^^^ rotr32 18 x ^^^ (x >>> 3)

/-- FIPS 180-4 `σ1`. -/
def smallSigma1 (x : Nat) : Nat := rotr32 17 x ^^^ rotr32 19 x ^^^ (x >>> 10)

/-- The 64 SHA-256 round constants, written in decimal. -/
def roundK : List Nat :=
  [1116352408, 1899447441, 3049323471, 3921009573, 961987163,
   1508970993, 2453635748, 2870763221, 3624381080, 310598401,
   607225278, 1426881987, 1925078388, 2162078206, 2614888103,
   3248222580, 3835390401, 4022224774, 264347078, 604807628,
   770255983, 1249150122, 1555081692, 1996064986, 2554220882,
   2821834349, 2952996808, 3210313671, 3336571891, 3584528711,
   113926993, 338241895, 666307205, 773529912, 1294757372,
   1396182291, 1695183700, 1986661051, 2177026350, 2456956037,
   2730485921, 2820302411, 3259730800, 3345764771, 3516065817,
   3600352804, 4094571909, 275423344, 430227734, 506948616,
   659060556, 883997877, 958139571, 1322822218, 1537002063,
   1747873779, 1955562222, 2024104815, 2227730452, 2361852424,
   2428436474, 2756734187, 3204031479, 3329325298]

/-- The eight 32-bit words of the SHA-256 working state. -/
structure Hash8 where
  a : Nat
  b : Nat
  c : Nat
  d : Nat
  e : Nat
  f : Nat
  g : Nat
  h : Nat
deriving Repr, DecidableEq

/-- The SHA-256 initial hash value `H(0)`, written in decimal. -/
def initH : Hash8 :=
  { a := 1779033703, b := 3144134277, c := 1013904242, d := 2773480762,
    e := 1359893119, f := 2600822924, g := 528734635, h := 1541459225 }

/-- One round of the SHA-256 compression function with round word `kw.2`
and round constant `kw.1`. -/
def compressRound (st : Hash8) (kw : Nat × Nat) : Hash8 :=
  let t1 := w32 (st.h + bigSigma1 st.e + ch st.e st.f st.g + kw.1 + kw.2)
  let t2 := w32 (bigSigma0 st.a + maj st.a st.b st.c)
  { a := w32 (t1 + t2), b := st.a, c := st.b, d := st.c,
    e := w32 (st.d + t1), f := st.e, g := st.f, h := st.g }

/-- Four bytes to one big-endian 32-bit word, consuming the list in groups
of four. -/
def bytesToWords : List Nat → List Nat
  | b0 :: b1 :: b2 :: b3 :: rest =>
      (((b0 * 256 + b1) * 256 + b2) * 256 + b3) :: bytesToWords rest
  | _ => []

/-- Append the next word of the message schedule to a schedule prefix of
length at least 16. -/
def scheduleStep (ws : List Nat) : List Nat :=
  let n := ws.length
  let back := fun (k : Nat) => ws.getD (n - k) 0
  ws ++ [w32 (smallSigma1 (back 2) + back 7 + smallSigma0 (back 15) + back 16)]

/-- Iterate a list transformer `n` times. -/
def iterateList (f : List Nat → List Nat) : Nat → List Nat → List Nat
  | 0, ws => ws
  | n + 1, ws => iterateList f n (f ws)

/-- The full 64-word message schedule of one 64-byte block. -/
def msgSchedule (block : List Nat) : List Nat :=
  iterateList scheduleStep 48 (bytesToWords block)

/-- Pointwise 32-bit addition of two working states (the feed-forward at
the end of each block). -/
def addState (x y : Hash8) : Hash8 :=
  { a := w32 (x.a + y.a), b := w32 (x.b + y.b), c := w32 (x.c + y.c),
    d := w32 (x.d + y.d), e := w32 (x.e + y.e), f := w32 (x.f + y.f),
    g := w32 (x.g + y.g), h := w32 (x.h + y.h) }

/-- Process one 64-byte block: 64 compression rounds followed by the
feed-forward addition. -/
def compressBlock (st : Hash8) (block : List Nat) : Hash8 :=
  addState st ((roundK.zip (msgSchedule block)).foldl compressRound st)

/-- The `n` big-endian bytes of `v`, most significant first. -/
def toBytesBE : Nat → Nat → List Nat
  | 0, _ => []
  | m + 1, v => (v / 2 ^ (8 * m)) % 256 :: toBytesBE m v

/-- SHA-256 padding: a `0x80` byte, zeros, then the 64-bit big-endian bit
length, bringing the total length to a multiple of 64 bytes. -/
def padMessage (msg : List Nat) : List Nat :=
  let len := msg.length
  msg ++ [128] ++ List.replicate ((64 - (len + 9) % 64) % 64) 0
      ++ toBytesBE 8 (len * 8)

/-- Split into 64-byte blocks; the fuel argument is an upper bound on the
number of blocks, supplied as the padded length. -/
def chunks64 : Nat → List Nat → List (List Nat)
  | 0, _ => []
  | _, [] => []
  | fuel + 1, l => l.take 64 :: chunks64 fuel (l.drop 64)

/-- SHA-256 of a byte string: pad, compress each block, and emit the final
state as 32 big-endian bytes. -/
def sha256 (msg : List Nat) : List Nat :=
  let padded := padMessage msg
  let st := (chunks64 padded.length padded).foldl compressBlock initH
  [st.a, st.b, st.c, st.d, st.e, st.f, st.g, st.h].flatMap (toBytesBE 4)

/-! ## Fingerprint codec (`buildCertificateFingerprint`, part_000 lines 242-255) -/

/-- An X.509 certificate as the embedding sees it: only its raw encoded
bytes (`x509.Certificate.Raw`) are ever consumed by this repository. -/
structure Certificate where
  raw : List Nat
deriving Repr, DecidableEq

/-- One uppercase hexadecimal digit (`0`-`9`, `A`-`F`) for `n < 16`. -/
def hexDigit (n : Nat) : Char :=
  if n < 10 then Char.ofNat (48 + n) else Char.ofNat (55 + n)

/-- Go's `fmt.Fprintf(&buf, "%02X", f)` for a byte: exactly two uppercase
hexadecimal digits. -/
def byteToHex (b : Nat) : List Char := [hexDigit (b / 16), hexDigit (b % 16)]

/-- `buildCertificateFingerprint`: SHA-256 over the certificate's raw
bytes, each digest byte rendered as two uppercase hex digits and
concatenated with no separator (the `Fprintf(&buf, "")` between bytes
writes nothing). -/
def buildCertificateFingerprint (certificate : Certificate) : String :=
  String.mk ((sha256 certificate.raw).flatMap byteToHex)

/-! ## Data model (`model` package of the repository)

The `model` package is not among the provided sources; its shapes are
reconstructed from their uses in `part_000` and from the spec's data
model section. -/

/-- Modelled from the spec: `model.HttpError`, "a structured failure
carrying an HTTP-status-like code, a message, and an optional underlying
cause"; the zero value denotes "no error" (the `err != model.HttpError{}`
idiom).  The Go `error` cause is modelled as an optional message
string. -/
structure HttpError where
  status : Nat
  message : String
  rootError : Option String
deriving Repr, DecidableEq

/-- The zero value `model.HttpError{}`: the "no error" sentinel. -/
def HttpError.zero : HttpError := { status := 0, message := "", rootError := none }

/-- Modelled from the spec: `model.AuthorizationRegistry`, the trust
anchor's identity, host and token path (fields `Id`, `Host`, `TokenPath`
set at construction in `part_000` line 85). -/
structure AuthorizationRegistry where
  id : String
  host : String
  tokenPath : String
deriving Repr, DecidableEq

/-- Modelled from the spec: one certificate registered for a party, its
`X5c` field holding the base64-encoded DER. -/
structure PartyCertificate where
  x5c : String
deriving Repr, DecidableEq

/-- Modelled from the spec: `model.PartyInfo`, "a participant's
registered certificates". -/
structure PartyInfo where
  certificates : List PartyCertificate
deriving Repr, DecidableEq

/-- Modelled from the spec: `model.TrustedParticipant`, a remote-list
entry with fields `Validity`, `Status` and `CertificateFingerprint`
(used in `part_000` lines 148-156). -/
structure TrustedParticipant where
  validity : String
  status : String
  certificateFingerprint : String
deriving Repr, DecidableEq

/-- Modelled from the spec: the JSON envelope of the party endpoint,
holding the single signed token string `PartyToken`. -/
structure TrustedPartyResponse where
  partyToken : String
deriving Repr, DecidableEq

/-- Modelled from the spec: the JSON envelope of the trusted-list
endpoint, holding the single signed token string `TrustedListToken`. -/
structure TrustedListResponse where
  trustedListToken : String
deriving Repr, DecidableEq

/-- Modelled from the spec: the result of the injected party-parsing
capability; its `PartyInfo` field is a pointer in Go, hence `Option`. -/
structure PartyToken where
  partyInfo : Option PartyInfo

/-- Modelled from the spec: the result of the injected trusted-list
parsing capability; its `TrustedList` field is a pointer in Go, hence
`Option`. -/
structure TrustedListToken where
  trustedList : Option (List TrustedParticipant)

/-! ## The repository state and its external world

In Go the token and parsing capabilities are function-valued fields of
`IShareTrustedParticipantRepository`; the HTTP client and JSON decoder
are standard-library effects.  Both become oracle functions here, so
every theorem quantifies over all of their behaviours. -/

/-- `IShareTrustedParticipantRepository` (part_000 lines 40-46): the
satellite endpoint, the current trusted fingerprints, and the three
injected capabilities. -/
structure IShareTrustedParticipantRepository where
  satelliteAr : AuthorizationRegistry
  trustedFingerprints : List String
  tokenFunc : AuthorizationRegistry → String × HttpError
  trustedListParserFunc : String → TrustedListToken × HttpError
  partyParseFunc : String → PartyToken × HttpError

/-- An HTTP response as consumed by `part_000`: status code and body. -/
structure HttpResponse where
  statusCode : Nat
  body : String
deriving Repr, DecidableEq

/-- The standard-library effects of `getTrustedParty`/`getTrustedList`
as an oracle: `http.NewRequest` failure (`some` = the Go error),
`globalHttpClient.Do` keyed by URL and bearer token (first component the
Go error, second the possibly-nil response), and the two
`json.Decoder.Decode` calls keyed by response body. -/
structure HttpWorld where
  newRequestError : String → Option String
  doRequest : String → String → Option String × Option HttpResponse
  decodePartyBody : String → Except String TrustedPartyResponse
  decodeListBody : String → Except String TrustedListResponse

/-- Package-level default `satellitePartyPath` (part_000 line 33). -/
def satellitePartyPath : String := "/party/"

/-- Package-level default `satelliteTrustedListPath` (part_000 line 32). -/
def satelliteTrustedListPath : String := "/trusted_list"

/-- `contains` (part_000 lines 257-264): linear membership scan over a
string slice. -/
def contains (s : List String) (e : String) : Bool :=
  match s with
  | [] => false
  | a :: rest => if a == e then true else contains rest e

/-- `getTrustedParty` (part_000 lines 162-200): token acquisition, the
authenticated GET to `host + "/party/" + id`, JSON envelope decoding,
and the injected party-parsing capability, each failure mapped exactly
as in the source.  Returns the Go pair `(trustedParty, httpErr)` with
the nil pointer as `none`. -/
def getTrustedParty (icr : IShareTrustedParticipantRepository) (w : HttpWorld)
    (id : String) : Option PartyInfo × HttpError :=
  match icr.tokenFunc icr.satelliteAr with
  | (accessToken, httpErr) =>
    if httpErr ≠ HttpError.zero then (none, httpErr)
    else
      let partyURL := icr.satelliteAr.host ++ satellitePartyPath ++ id
      match w.newRequestError partyURL with
      | some e =>
          (none, { status := 500,
                   message := "Was not able to create the request to the trusted list.",
                   rootError := some e })
      | none =>
        match w.doRequest partyURL accessToken with
        | (some e, _) =>
            (none, { status := 502,
                     message := "Was not able to retrieve the trusted list.",
                     rootError := some e })
        | (none, none) =>
            (none, { status := 502,
                     message := "Was not able to retrieve the trusted list.",
                     rootError := none })
        | (none, some partyResponse) =>
          if partyResponse.statusCode ≠ 200 then
            (none, { status := 502,
                     message := "Was not able to retrieve the trusted party.",
                     rootError := none })
          else
            match w.decodePartyBody partyResponse.body with
            | Except.error e =>
                (none, { status := 502,
                         message := "Received an invalid body from the satellite: "
                                      ++ partyResponse.body,
                         rootError := some e })
            | Except.ok partyResponseObject =>
              match icr.partyParseFunc partyResponseObject.partyToken with
              | (parsedToken, httpErr2) =>
                if httpErr2 ≠ HttpError.zero then (none, httpErr2)
                else (parsedToken.partyInfo, httpErr2)

/-- `getTrustedList` (part_000 lines 202-240): same protocol shape as
`getTrustedParty` against `host + "/trusted_list"`, delegating to the
injected trusted-list parsing capability. -/
def getTrustedList (icr : IShareTrustedParticipantRepository) (w : HttpWorld) :
    Option (List TrustedParticipant) × HttpError :=
  match icr.tokenFunc icr.satelliteAr with
  | (accessToken, httpErr) =>
    if httpErr ≠ HttpError.zero then (none, httpErr)
    else
      let trustedListURL := icr.satelliteAr.host ++ satelliteTrustedListPath
      match w.newRequestError trustedListURL with
      | some e =>
          (none, { status := 500,
                   message := "Was not able to create the request to the trusted list.",
                   rootError := some e })
      | none =>
        match w.doRequest trustedListURL accessToken with
        | (some e, _) =>
            (none, { status := 502,
                     message := "Was not able to retrieve the trusted list.",
                     rootError := some e })
        | (none, none) =>
            (none, { status := 502,
                     message := "Was not able to retrieve the trusted list.",
                     rootError := none })
        | (none, some listResponse) =>
          if listResponse.statusCode ≠ 200 then
            (none, { status := 502,
                     message := "Was not able to retrieve the trusted list.",
                     rootError := none })
          else
            match w.decodeListBody listResponse.body with
            | Except.error e =>
                (none, { status := 502,
                         message := "Received an invalid body from the satellite: "
                                      ++ listResponse.body,
                         rootError := some e })
            | Except.ok listResponseObject =>
              match icr.trustedListParserFunc listResponseObject.trustedListToken with
              | (parsedToken, httpErr2) =>
                if httpErr2 ≠ HttpError.zero then (none, httpErr2)
                else (parsedToken.trustedList, httpErr2)

/-- The standard-library certificate effects used inside `IsTrusted`'s
loop, as an oracle: `base64.StdEncoding.DecodeString` and
`x509.ParseCertificate`, with `none` standing for the Go error case. -/
structure CertCaps where
  decodeBase64 : String → Option (List Nat)
  parseCertificate : List Nat → Option Certificate

/-- The loop of `IsTrusted` over `*trustedParty.Certificates` (part_000
lines 118-134): decode, parse, compare fingerprints; failure of either
step returns `false` for the whole call. -/
def checkCertificates (caps : CertCaps) (clientCertificate : Certificate) :
    List PartyCertificate → Bool
  | [] => false
  | cert :: rest =>
    match caps.decodeBase64 cert.x5c with
    | none => false
    | some decodedCert =>
      match caps.parseCertificate decodedCert with
      | none => false
      | some parsedCert =>
        if buildCertificateFingerprint parsedCert
            == buildCertificateFingerprint clientCertificate then true
        else checkCertificates caps clientCertificate rest

/-- `IsTrusted` (part_000 lines 103-135): CA-fingerprint membership
first, then the per-party certificate check via `getTrustedParty`.
`getTrustedParty` never returns `(none, HttpError.zero)`, so the `none`
branch after a zero error (where Go would dereference a nil pointer) is
unreachable. -/
def IsTrusted (icr : IShareTrustedParticipantRepository) (w : HttpWorld)
    (caps : CertCaps) (caCertificate clientCertificate : Certificate)
    (clientId : String) : Bool :=
  let certificateFingerPrint := buildCertificateFingerprint caCertificate
  if contains icr.trustedFingerprints certificateFingerPrint then true
  else
    match getTrustedParty icr w clientId with
    | (trustedParty, err) =>
      if err ≠ HttpError.zero then false
      else
        match trustedParty with
        | none => false
        | some party => checkCertificates caps clientCertificate party.certificates

/-- The body of `updateTrustedFingerprints` (part_000 lines 137-160),
acting on the state the method sees: its value receiver, a by-value
copy of the repository.  On a fetch error the body performs no
assignment and the copy is returned untouched; on success the
fingerprint list is rebuilt from scratch, keeping exactly the `valid`
and `granted` participants in list order, and line 158 assigns it to
the copy's field.  Go then discards that copy (the scheduled method
value of line 100 binds its own copy of the receiver), so the
repository observed by later calls is NOT this function's result; the
observable effect of a tick is `scheduledRefreshTick` below.
`getTrustedList` never returns `(none, HttpError.zero)`, so the `none`
branch after a zero error (a nil-pointer dereference in Go) is
unreachable. -/
def updateTrustedFingerprints (icr : IShareTrustedParticipantRepository)
    (w : HttpWorld) : IShareTrustedParticipantRepository :=
  match getTrustedList icr w with
  | (trustedList, httpErr) =>
    if httpErr ≠ HttpError.zero then icr
    else
      match trustedList with
      | none => icr
      | some list =>
        let updatedFingerPrints := list.foldl
          (fun acc trustedParticipant =>
            if trustedParticipant.validity ≠ "valid" then acc
            else if trustedParticipant.status ≠ "granted" then acc
            else acc ++ [trustedParticipant.certificateFingerprint]) []
        { icr with trustedFingerprints := updatedFingerPrints }

/-- The observable effect of one scheduled refresh tick on the
repository (part_000 lines 98-101 with 137-160): `ScheduleAtFixedRate`
is handed the method value `icr.updateTrustedFingerprints`, which binds
a copy of the value receiver; the tick runs the method body on that
copy and the mutated copy is discarded when the tick returns.  The
repository that `IsTrusted` reads is therefore unchanged by the tick,
whether the fetch succeeds or fails. -/
def scheduledRefreshTick (icr : IShareTrustedParticipantRepository)
    (w : HttpWorld) : IShareTrustedParticipantRepository :=
  let _discardedCopy := updateTrustedFingerprints icr w
  icr

/-! ## Role-claim evaluator (`customercredentialverifier.go`) -/

/-- Modelled from the spec: `model.Claim`, "a named policy constraint
carrying an allow-list of permitted values" (fields `Name` and
`AllowedValues` as used in the verifier). -/
structure Claim where
  name : String
  allowedValues : List String
deriving Repr, DecidableEq

/-- Modelled from the spec: `model.CustomerCredentialSubject`, "the
entity being authorized, carrying a set of claimed role strings". -/
structure CustomerCredentialSubject where
  roles : List String
deriving Repr, DecidableEq

/-- Modelled from the spec: `model.Decision`, "a boolean outcome plus a
human-readable justification string". -/
structure Decision where
  decision : Bool
  reason : String
deriving Repr, DecidableEq

/-- Modelled from the spec: `logging.PrettyPrintObject` (not among the
provided sources) renders an object into a human-readable string for a
message; modelled as a deterministic rendering of the claim. -/
def prettyPrintObject (c : Claim) : String :=
  "Claim[name=" ++ c.name ++ ",allowedValues="
    ++ String.intercalate "," c.allowedValues ++ "]"

/-- The first loop of `Verify`: `roleClaim := Claim{}` followed by the
scan for the first claim named `"roles"` with `break`; absent, the zero
value (empty name, nil allow-list) remains. -/
def findRoleClaim : List Claim → Claim
  | [] => { name := "", allowedValues := [] }
  | claim :: rest => if claim.name == "roles" then claim else findRoleClaim rest

/-- The second loop of `Verify`: the first role not contained in the
allow-list produces the denial, otherwise the positive decision. -/
def checkRoles (roleClaim : Claim) : List String → Decision
  | [] => { decision := true, reason := "Role claims allowed." }
  | role :: rest =>
    if !contains roleClaim.allowedValues role then
      { decision := false,
        reason := "Role " ++ role ++ " is not coverd by the roles-claim capability "
                    ++ prettyPrintObject roleClaim ++ "." }
    else checkRoles roleClaim rest

/-- `CustomerCredentialVerifier.Verify` (customercredentialverifier.go
lines 9-33).  The named return `err httpError` is never assigned, so the
zero `HttpError` accompanies every decision. -/
def Verify (claims : List Claim) (credentialSubject : CustomerCredentialSubject) :
    Decision × HttpError :=
  let roleClaim := findRoleClaim claims
  if roleClaim.name == "" then
    ({ decision := true, reason := "No restrictions for roles exist." }, HttpError.zero)
  else if roleClaim.allowedValues.length == 0 then
    ({ decision := false,
       reason := "Claim " ++ prettyPrintObject roleClaim
                   ++ " does not allow any role assignment." }, HttpError.zero)
  else (checkRoles roleClaim credentialSubject.roles, HttpError.zero)

/-! ## Properties of the fingerprint codec -/

/-- `toBytesBE n v` always yields exactly `n` bytes. -/
theorem toBytesBE_length : ∀ (n v : Nat), (toBytesBE n v).length = n
  | 0, _ => rfl
  | n + 1, v => by simp [toBytesBE, toBytesBE_length n]

/-- Every byte emitted by `toBytesBE` is below 256. -/
theorem toBytesBE_mem_lt : ∀ (n v b : Nat), b ∈ toBytesBE n v → b < 256
  | 0, _, _, h => by simp [toBytesBE] at h
  | n + 1, v, b, h => by
      simp only [toBytesBE, List.mem_cons] at h
      rcases h with h | h
      · subst h
        exact Nat.mod_lt _ (by norm_num)
      · exact toBytesBE_mem_lt n v b h

/-- A SHA-256 digest is exactly 32 bytes. -/
theorem sha256_length (msg : List Nat) : (sha256 msg).length = 32 := by
  simp [sha256, toBytesBE_length]

/-- Every byte of a SHA-256 digest is below 256. -/
theorem sha256_mem_lt (msg : List Nat) (b : Nat) (h : b ∈ sha256 msg) : b < 256 := by
  simp only [sha256, List.mem_flatMap] at h
  obtain ⟨w, _, hw⟩ := h
  exact toBytesBE_mem_lt _ _ _ hw

/-- The sixteen uppercase hexadecimal digit characters. -/
def hexAlphabet : List Char := "0123456789ABCDEF".data

/-- `hexDigit` maps every value below 16 into the uppercase hexadecimal
alphabet. -/
theorem hexDigit_mem : ∀ k < 16, hexDigit k ∈ hexAlphabet := by decide

/-- Both characters of a byte's two-digit rendering are uppercase
hexadecimal digits. -/
theorem byteToHex_mem (b : Nat) (hb : b < 256) (d : Char) (h : d ∈ byteToHex b) :
    d ∈ hexAlphabet := by
  simp only [byteToHex, List.mem_cons, List.not_mem_nil, or_false] at h
  rcases h with h | h
  · subst h
    exact hexDigit_mem _ (Nat.div_lt_of_lt_mul (by omega))
  · subst h
    exact hexDigit_mem _ (Nat.mod_lt _ (by norm_num))

/-- Rendering a byte list in hex doubles its length. -/
theorem flatMap_byteToHex_length :
    ∀ l : List Nat, (l.flatMap byteToHex).length = 2 * l.length
  | [] => rfl
  | b :: rest => by
      simp [List.flatMap_cons, byteToHex, flatMap_byteToHex_length rest]
      omega

set_option maxRecDepth 20000 in
/-- Sanity check of the SHA-256 embedding against the FIPS 180-4 test
vector for the empty message. -/
theorem fingerprint_empty_test_vector :
    buildCertificateFingerprint { raw := [] }
      = "E3B0C44298FC1C149AFBF4C8996FB92427AE41E4649B934CA495991B7852B855" := by
  decide

/-- C8: `buildCertificateFingerprint` is deterministic and renders the
SHA-256 digest of the certificate's raw bytes as exactly 64 characters,
two uppercase hexadecimal digits per digest byte with no separator
(`buildCertificateFingerprint` is by definition the hex rendering of
`sha256 certificate.raw`): its output has length 64, draws every
character from the uppercase hexadecimal alphabet, and equal raw bytes
yield equal strings. -/
theorem buildCertificateFingerprint_props (c1 c2 : Certificate) :
    (buildCertificateFingerprint c1).length = 64
    ∧ (∀ d ∈ (buildCertificateFingerprint c1).data, d ∈ hexAlphabet)
    ∧ (c1.raw = c2.raw → buildCertificateFingerprint c1 = buildCertificateFingerprint c2) := by
  refine ⟨?_, ?_, ?_⟩
  · show ((sha256 c1.raw).flatMap byteToHex).length = 64
    rw [flatMap_byteToHex_length, sha256_length]
  · intro d hd
    have hd' : d ∈ (sha256 c1.raw).flatMap byteToHex := hd
    rw [List.mem_flatMap] at hd'
    obtain ⟨b, hb, hdb⟩ := hd'
    exact byteToHex_mem b (sha256_mem_lt _ _ hb) d hdb
  · intro h
    simp [buildCertificateFingerprint, h]

/-- Witness for C8 at the empty certificate. -/
theorem buildCertificateFingerprint_props_witness :
    buildCertificateFingerprint { raw := [] } = buildCertificateFingerprint { raw := [] }
    ∧ (buildCertificateFingerprint { raw := [] }).length = 64 :=
  ⟨(buildCertificateFingerprint_props { raw := [] } { raw := [] }).2.2 rfl,
   (buildCertificateFingerprint_props { raw := [] } { raw := [] }).1⟩

/-! ## Trust-store theorems: CA tier and refresh -/

/-- C1: whenever the CA certificate's fingerprint is a member of the
current trusted-fingerprint set, `IsTrusted` returns `true`; the world
`w` (token acquisition, transport, decoding) and the certificate
capabilities `caps` are universally quantified and do not appear in the
conclusion, so the result is independent of the party lookup and of
every injected capability. -/
theorem IsTrusted_true_of_trusted_ca (icr : IShareTrustedParticipantRepository)
    (w : HttpWorld) (caps : CertCaps) (caCertificate clientCertificate : Certificate)
    (clientId : String)
    (h : contains icr.trustedFingerprints (buildCertificateFingerprint caCertificate) = true) :
    IsTrusted icr w caps caCertificate clientCertificate clientId = true := by
  unfold IsTrusted
  simp [h]

/-- The fixed satellite endpoint used by the concrete witnesses. -/
def sampleAr : AuthorizationRegistry :=
  { id := "EU.EORI.NL000000000", host := "https://scheme.isharetest.net",
    tokenPath := "/connect/token" }

/-- A world whose transport always fails. -/
def failingWorld : HttpWorld :=
  { newRequestError := fun _ => none,
    doRequest := fun _ _ => (some "network down", none),
    decodePartyBody := fun _ => Except.error "undecodable",
    decodeListBody := fun _ => Except.error "undecodable" }

/-- Certificate capabilities that reject every registered certificate. -/
def rejectingCaps : CertCaps :=
  { decodeBase64 := fun _ => none, parseCertificate := fun _ => none }

/-- A repository that trusts the CA fingerprint of the empty certificate
and whose token capability always fails. -/
def icrTrustedCA : IShareTrustedParticipantRepository :=
  { satelliteAr := sampleAr,
    trustedFingerprints := [buildCertificateFingerprint { raw := [] }],
    tokenFunc := fun _ => ("", { status := 502, message := "unreachable", rootError := none }),
    trustedListParserFunc := fun _ => ({ trustedList := none }, HttpError.zero),
    partyParseFunc := fun _ => ({ partyInfo := none }, HttpError.zero) }

/-- Witness for C1: a trusted CA fingerprint yields `true` even though
every remote capability fails. -/
theorem IsTrusted_true_of_trusted_ca_witness :
    contains icrTrustedCA.trustedFingerprints
        (buildCertificateFingerprint { raw := [] }) = true
    ∧ IsTrusted icrTrustedCA failingWorld rejectingCaps { raw := [] } { raw := [1] }
        "EU.EORI.NL000000001" = true := by
  have h : contains icrTrustedCA.trustedFingerprints
      (buildCertificateFingerprint { raw := [] }) = true := by
    simp [icrTrustedCA, contains]
  exact ⟨h, IsTrusted_true_of_trusted_ca _ _ _ _ _ _ h⟩

/-- C2: when the CA fingerprint is not in the set and the party lookup
returns any non-zero `HttpError` (whether it arose from the token
capability, the transport, the JSON decoding or the injected
party-parsing capability), `IsTrusted` returns `false`. -/
theorem IsTrusted_false_of_party_error (icr : IShareTrustedParticipantRepository)
    (w : HttpWorld) (caps : CertCaps) (caCertificate clientCertificate : Certificate)
    (clientId : String)
    (h1 : contains icr.trustedFingerprints (buildCertificateFingerprint caCertificate) = false)
    (h2 : (getTrustedParty icr w clientId).2 ≠ HttpError.zero) :
    IsTrusted icr w caps caCertificate clientCertificate clientId = false := by
  unfold IsTrusted
  rcases hgp : getTrustedParty icr w clientId with ⟨party, err⟩
  rw [hgp] at h2
  simp only [Prod.snd] at h2
  simp [h1, hgp, h2]

/-- A repository with an empty trusted set and a failing token
capability. -/
def icrNoToken : IShareTrustedParticipantRepository :=
  { satelliteAr := sampleAr,
    trustedFingerprints := [],
    tokenFunc := fun _ => ("", { status := 502, message := "no token", rootError := none }),
    trustedListParserFunc := fun _ => ({ trustedList := none }, HttpError.zero),
    partyParseFunc := fun _ => ({ partyInfo := none }, HttpError.zero) }

/-- Witness for C2: a failing token acquisition makes the party lookup
fail, and `IsTrusted` denies. -/
theorem IsTrusted_false_of_party_error_witness :
    contains icrNoToken.trustedFingerprints
        (buildCertificateFingerprint { raw := [] }) = false
    ∧ (getTrustedParty icrNoToken failingWorld "EU.EORI.NL000000001").2 ≠ HttpError.zero
    ∧ IsTrusted icrNoToken failingWorld rejectingCaps { raw := [] } { raw := [1] }
        "EU.EORI.NL000000001" = false := by
  have h1 : contains icrNoToken.trustedFingerprints
      (buildCertificateFingerprint { raw := [] }) = false := rfl
  have h2 : (getTrustedParty icrNoToken failingWorld "EU.EORI.NL000000001").2
      ≠ HttpError.zero := by decide
  exact ⟨h1, h2, IsTrusted_false_of_party_error _ _ _ _ _ _ h1 h2⟩

/-- The refresh filter accumulates, in list order, exactly the
fingerprints of the `valid` and `granted` participants. -/
theorem foldl_updateFingerprints (list : List TrustedParticipant) (acc : List String) :
    list.foldl
      (fun acc trustedParticipant =>
        if trustedParticipant.validity ≠ "valid" then acc
        else if trustedParticipant.status ≠ "granted" then acc
        else acc ++ [trustedParticipant.certificateFingerprint]) acc
    = acc ++ (list.filter
          (fun p => p.validity == "valid" && p.status == "granted")).map
        (fun p => p.certificateFingerprint) := by
  induction list generalizing acc with
  | nil => simp
  | cons p rest ih =>
    simp only [List.foldl_cons, List.filter_cons]
    by_cases hv : p.validity = "valid"
    · by_cases hs : p.status = "granted"
      · rw [if_neg (not_not_intro hv), if_neg (not_not_intro hs),
          if_pos (by simp [hv, hs]), ih]
        simp
      · rw [if_neg (not_not_intro hv), if_pos hs, if_neg (by simp [hs])]
        exact ih acc
    · rw [if_pos hv, if_neg (by simp [hv])]
      exact ih acc

/-- When the trusted-list fetch succeeds, the refresh body computes on
its receiver copy exactly the fingerprints of the fetched entries with
`validity == "valid"` and `status == "granted"`, in list order —
the replacement the spec intends, which the value receiver then
loses. -/
theorem updateTrustedFingerprints_success (icr : IShareTrustedParticipantRepository)
    (w : HttpWorld) (list : List TrustedParticipant)
    (h : getTrustedList icr w = (some list, HttpError.zero)) :
    (updateTrustedFingerprints icr w).trustedFingerprints
      = (list.filter (fun p => p.validity == "valid" && p.status == "granted")).map
          (fun p => p.certificateFingerprint) := by
  unfold updateTrustedFingerprints
  rw [h]
  simpa using foldl_updateFingerprints list []

/-- The three participants of the spec's refresh scenario. -/
def participantP1 : TrustedParticipant :=
  { validity := "valid", status := "granted", certificateFingerprint := "P1" }

/-- A participant that is granted but not valid. -/
def participantP2 : TrustedParticipant :=
  { validity := "pending", status := "granted", certificateFingerprint := "P2" }

/-- A participant that is valid but revoked. -/
def participantP3 : TrustedParticipant :=
  { validity := "valid", status := "revoked", certificateFingerprint := "P3" }

/-- A world whose trusted-list endpoint responds successfully. -/
def listWorld : HttpWorld :=
  { newRequestError := fun _ => none,
    doRequest := fun _ _ => (none, some { statusCode := 200, body := "listbody" }),
    decodePartyBody := fun _ => Except.error "unused",
    decodeListBody := fun _ => Except.ok { trustedListToken := "listtoken" } }

/-- A repository whose list parser yields the three-participant
scenario. -/
def icrListFetch : IShareTrustedParticipantRepository :=
  { satelliteAr := sampleAr,
    trustedFingerprints := ["SEED"],
    tokenFunc := fun _ => ("access", HttpError.zero),
    trustedListParserFunc := fun _ =>
      ({ trustedList := some [participantP1, participantP2, participantP3] }, HttpError.zero),
    partyParseFunc := fun _ => ({ partyInfo := none }, HttpError.zero) }

/-- C3: the claim describes the intended refresh and the code loses it.
At the spec's scenario `(valid,granted,P1), (pending,granted,P2),
(valid,revoked,P3)` the refresh body computes exactly `["P1"]` on its
receiver copy — but the copy is discarded (value receiver, part_000
lines 98-101 and 137), so the repository observed by subsequent
`IsTrusted` calls still carries its seed `["SEED"]`, not the filtered
fingerprints the claim asserts. -/
theorem updateTrustedFingerprints_lost_update :
    getTrustedList icrListFetch listWorld
        = (some [participantP1, participantP2, participantP3], HttpError.zero)
    ∧ (updateTrustedFingerprints icrListFetch listWorld).trustedFingerprints = ["P1"]
    ∧ scheduledRefreshTick icrListFetch listWorld = icrListFetch
    ∧ (scheduledRefreshTick icrListFetch listWorld).trustedFingerprints = ["SEED"]
    ∧ (scheduledRefreshTick icrListFetch listWorld).trustedFingerprints ≠ ["P1"] := by
  have h : getTrustedList icrListFetch listWorld
      = (some [participantP1, participantP2, participantP3], HttpError.zero) := by decide
  exact ⟨h, (updateTrustedFingerprints_success _ _ _ h).trans (by decide), rfl, rfl,
    by decide⟩

/-- C6: a refresh tick whose trusted-list fetch returns any non-zero
`HttpError` performs no update at all: the repository, and in particular
its previously active fingerprint set, is left unchanged. -/
theorem updateTrustedFingerprints_error_noop (icr : IShareTrustedParticipantRepository)
    (w : HttpWorld)
    (h : (getTrustedList icr w).2 ≠ HttpError.zero) :
    updateTrustedFingerprints icr w = icr := by
  unfold updateTrustedFingerprints
  rcases hgl : getTrustedList icr w with ⟨l, err⟩
  rw [hgl] at h
  simp only [Prod.snd] at h
  simp [hgl, h]

/-- Witness for C6: with a failing token capability the fetch errors and
the repository is untouched. -/
theorem updateTrustedFingerprints_error_noop_witness :
    (getTrustedList icrNoToken failingWorld).2 ≠ HttpError.zero
    ∧ updateTrustedFingerprints icrNoToken failingWorld = icrNoToken := by
  have h : (getTrustedList icrNoToken failingWorld).2 ≠ HttpError.zero := by decide
  exact ⟨h, updateTrustedFingerprints_error_noop _ _ h⟩

/-! ## Trust-store theorems: the per-party certificate loop -/

/-- The fingerprint a registered certificate decodes and parses to, when
both steps succeed: `none` exactly when base64 decoding or certificate
parsing fails. -/
def parsedFingerprint (caps : CertCaps) (cert : PartyCertificate) : Option String :=
  ((caps.decodeBase64 cert.x5c).bind caps.parseCertificate).map buildCertificateFingerprint

/-- A malformed head (decode or parse failure) makes the loop return
`false` for the whole list. -/
theorem checkCertificates_cons_none (caps : CertCaps) (cc : Certificate)
    (cert : PartyCertificate) (rest : List PartyCertificate)
    (h : parsedFingerprint caps cert = none) :
    checkCertificates caps cc (cert :: rest) = false := by
  unfold parsedFingerprint at h
  cases hd : caps.decodeBase64 cert.x5c with
  | none => simp [checkCertificates, hd]
  | some d =>
    rw [hd] at h
    simp only [Option.some_bind] at h
    cases hp : caps.parseCertificate d with
    | none => simp [checkCertificates, hd, hp]
    | some p => rw [hp] at h; simp at h

/-- A well-formed head whose fingerprint equals the client
certificate's makes the loop return `true`. -/
theorem checkCertificates_cons_match (caps : CertCaps) (cc : Certificate)
    (cert : PartyCertificate) (rest : List PartyCertificate)
    (h : parsedFingerprint caps cert = some (buildCertificateFingerprint cc)) :
    checkCertificates caps cc (cert :: rest) = true := by
  unfold parsedFingerprint at h
  cases hd : caps.decodeBase64 cert.x5c with
  | none => rw [hd] at h; simp at h
  | some d =>
    rw [hd] at h
    simp only [Option.some_bind] at h
    cases hp : caps.parseCertificate d with
    | none => rw [hp] at h; simp at h
    | some p =>
      rw [hp] at h
      simp only [Option.map_some'] at h
      replace h := Option.some.inj h
      simp [checkCertificates, hd, hp, h]

/-- A well-formed head whose fingerprint differs from the client
certificate's is passed over, the loop continuing with the rest. -/
theorem checkCertificates_cons_skip (caps : CertCaps) (cc : Certificate)
    (cert : PartyCertificate) (rest : List PartyCertificate) (f : String)
    (h : parsedFingerprint caps cert = some f)
    (hne : f ≠ buildCertificateFingerprint cc) :
    checkCertificates caps cc (cert :: rest) = checkCertificates caps cc rest := by
  unfold parsedFingerprint at h
  cases hd : caps.decodeBase64 cert.x5c with
  | none => rw [hd] at h; simp at h
  | some d =>
    rw [hd] at h
    simp only [Option.some_bind] at h
    cases hp : caps.parseCertificate d with
    | none => rw [hp] at h; simp at h
    | some p =>
      rw [hp] at h
      simp only [Option.map_some'] at h
      replace h := Option.some.inj h
      subst h
      simp [checkCertificates, hd, hp, beq_eq_false_iff_ne.mpr hne]

/-- A prefix of well-formed, non-matching certificates does not affect
the loop's verdict. -/
theorem checkCertificates_append_nomatch (caps : CertCaps) (cc : Certificate)
    (pre l : List PartyCertificate)
    (hpre : ∀ c ∈ pre, ∃ f, parsedFingerprint caps c = some f
              ∧ f ≠ buildCertificateFingerprint cc) :
    checkCertificates caps cc (pre ++ l) = checkCertificates caps cc l := by
  induction pre with
  | nil => rfl
  | cons c pre ih =>
    obtain ⟨f, hf, hne⟩ := hpre c (by simp)
    rw [List.cons_append, checkCertificates_cons_skip caps cc c (pre ++ l) f hf hne]
    exact ih fun c hc => hpre c (by simp [hc])

/-- When the preceding trust tiers fall through — the CA fingerprint is
not in the set and the party lookup succeeds — `IsTrusted` is exactly
the certificate loop over the party's registered certificates. -/
theorem IsTrusted_eq_checkCertificates (icr : IShareTrustedParticipantRepository)
    (w : HttpWorld) (caps : CertCaps) (caCertificate clientCertificate : Certificate)
    (clientId : String) (party : PartyInfo)
    (h1 : contains icr.trustedFingerprints (buildCertificateFingerprint caCertificate) = false)
    (h2 : getTrustedParty icr w clientId = (some party, HttpError.zero)) :
    IsTrusted icr w caps caCertificate clientCertificate clientId
      = checkCertificates caps clientCertificate party.certificates := by
  unfold IsTrusted
  rw [h2]
  simp [h1]

/-- `some a == some b` unfolds to `a == b`. -/
theorem some_beq_some {α : Type} [BEq α] (a b : α) :
    ((some a : Option α) == some b) = (a == b) := rfl

/-- Under the well-formedness assumption, the loop agrees with an
existential scan for a fingerprint match. -/
theorem checkCertificates_eq_any (caps : CertCaps) (cc : Certificate) :
    ∀ l : List PartyCertificate, (∀ c ∈ l, (parsedFingerprint caps c).isSome) →
      checkCertificates caps cc l
        = l.any fun c => parsedFingerprint caps c == some (buildCertificateFingerprint cc)
  | [], _ => rfl
  | c :: rest, h => by
    obtain ⟨f, hf⟩ := Option.isSome_iff_exists.mp (h c (by simp))
    have hrest := checkCertificates_eq_any caps cc rest fun c hc => h c (by simp [hc])
    by_cases hm : f = buildCertificateFingerprint cc
    · subst hm
      rw [checkCertificates_cons_match caps cc c rest hf]
      simp [List.any_cons, hf, some_beq_some]
    · rw [checkCertificates_cons_skip caps cc c rest f hf hm, hrest]
      simp [List.any_cons, hf, some_beq_some, beq_eq_false_iff_ne.mpr hm]

/-- C4: with the CA tier missed, a successful party lookup, and every
registered certificate well-formed under the decode/parse capabilities,
`IsTrusted` returns `true` exactly when some registered certificate's
fingerprint equals the presented client certificate's fingerprint — and
`false` when the list (empty included) holds no match. -/
theorem IsTrusted_eq_any_match (icr : IShareTrustedParticipantRepository)
    (w : HttpWorld) (caps : CertCaps) (caCertificate clientCertificate : Certificate)
    (clientId : String) (party : PartyInfo)
    (h1 : contains icr.trustedFingerprints (buildCertificateFingerprint caCertificate) = false)
    (h2 : getTrustedParty icr w clientId = (some party, HttpError.zero))
    (h3 : ∀ c ∈ party.certificates, (parsedFingerprint caps c).isSome) :
    IsTrusted icr w caps caCertificate clientCertificate clientId
      = party.certificates.any
          (fun c => parsedFingerprint caps c
                      == some (buildCertificateFingerprint clientCertificate)) := by
  rw [IsTrusted_eq_checkCertificates icr w caps caCertificate clientCertificate
        clientId party h1 h2]
  exact checkCertificates_eq_any caps clientCertificate party.certificates h3

/-- C5: once the loop is reached, a registered certificate failing
base64 decoding or certificate parsing makes `IsTrusted` return `false`
immediately, no matter what follows it: the preceding certificates are
assumed well-formed and non-matching (so the loop actually reaches the
malformed one), and the certificates after it are arbitrary — a
malformed registered certificate voids the whole check rather than
being skipped. -/
theorem IsTrusted_false_of_malformed_certificate
    (icr : IShareTrustedParticipantRepository) (w : HttpWorld) (caps : CertCaps)
    (caCertificate clientCertificate : Certificate) (clientId : String)
    (party : PartyInfo) (pre : List PartyCertificate) (bad : PartyCertificate)
    (rest : List PartyCertificate)
    (h1 : contains icr.trustedFingerprints (buildCertificateFingerprint caCertificate) = false)
    (h2 : getTrustedParty icr w clientId = (some party, HttpError.zero))
    (hcerts : party.certificates = pre ++ bad :: rest)
    (hpre : ∀ c ∈ pre, ∃ f, parsedFingerprint caps c = some f
              ∧ f ≠ buildCertificateFingerprint clientCertificate)
    (hbad : caps.decodeBase64 bad.x5c = none
            ∨ ∃ d, caps.decodeBase64 bad.x5c = some d ∧ caps.parseCertificate d = none) :
    IsTrusted icr w caps caCertificate clientCertificate clientId = false := by
  have hbadnone : parsedFingerprint caps bad = none := by
    rcases hbad with h | ⟨d, hd, hp⟩
    · simp [parsedFingerprint, h]
    · simp [parsedFingerprint, hd, hp]
  rw [IsTrusted_eq_checkCertificates icr w caps caCertificate clientCertificate
        clientId party h1 h2, hcerts,
    checkCertificates_append_nomatch caps clientCertificate pre (bad :: rest) hpre,
    checkCertificates_cons_none caps clientCertificate bad rest hbadnone]

/-- C10: the loop examines the registered certificates strictly in list
order and returns as soon as one matches: if a well-formed certificate
whose fingerprint equals the client certificate's follows only
well-formed non-matching ones, `IsTrusted` returns `true` whatever
comes after it in the list — in particular a malformed certificate
behind the match is never examined. -/
theorem IsTrusted_true_of_first_match
    (icr : IShareTrustedParticipantRepository) (w : HttpWorld) (caps : CertCaps)
    (caCertificate clientCertificate : Certificate) (clientId : String)
    (party : PartyInfo) (pre : List PartyCertificate) (good : PartyCertificate)
    (rest : List PartyCertificate)
    (h1 : contains icr.trustedFingerprints (buildCertificateFingerprint caCertificate) = false)
    (h2 : getTrustedParty icr w clientId = (some party, HttpError.zero))
    (hcerts : party.certificates = pre ++ good :: rest)
    (hpre : ∀ c ∈ pre, ∃ f, parsedFingerprint caps c = some f
              ∧ f ≠ buildCertificateFingerprint clientCertificate)
    (hgood : parsedFingerprint caps good
               = some (buildCertificateFingerprint clientCertificate)) :
    IsTrusted icr w caps caCertificate clientCertificate clientId = true := by
  rw [IsTrusted_eq_checkCertificates icr w caps caCertificate clientCertificate
        clientId party h1 h2, hcerts,
    checkCertificates_append_nomatch caps clientCertificate pre (good :: rest) hpre,
    checkCertificates_cons_match caps clientCertificate good rest hgood]

/-! ## Concrete fixtures for the party-lookup witnesses -/

/-- Capabilities that decode only the registered string `"good"` (to the
byte `[1]`) and parse any decoded bytes back into a certificate with
those raw bytes. -/
def matchingCaps : CertCaps :=
  { decodeBase64 := fun s => if s == "good" then some [1] else none,
    parseCertificate := fun b => some { raw := b } }

/-- A party registered with the single well-formed certificate
`"good"`. -/
def partyGood : PartyInfo := { certificates := [{ x5c := "good" }] }

/-- A party whose first registered certificate is malformed and whose
second would match the client. -/
def partyBadFirst : PartyInfo := { certificates := [{ x5c := "bad" }, { x5c := "good" }] }

/-- A party whose first registered certificate matches the client and
whose second is malformed. -/
def partyGoodFirst : PartyInfo := { certificates := [{ x5c := "good" }, { x5c := "bad" }] }

/-- A world whose party endpoint responds successfully. -/
def partyWorld : HttpWorld :=
  { newRequestError := fun _ => none,
    doRequest := fun _ _ => (none, some { statusCode := 200, body := "partybody" }),
    decodePartyBody := fun _ => Except.ok { partyToken := "partytoken" },
    decodeListBody := fun _ => Except.error "unused" }

/-- A repository whose party parser yields `partyGood`. -/
def icrPartyGood : IShareTrustedParticipantRepository :=
  { satelliteAr := sampleAr,
    trustedFingerprints := [],
    tokenFunc := fun _ => ("access", HttpError.zero),
    trustedListParserFunc := fun _ => ({ trustedList := none }, HttpError.zero),
    partyParseFunc := fun _ => ({ partyInfo := some partyGood }, HttpError.zero) }

/-- A repository whose party parser yields `partyBadFirst`. -/
def icrPartyBadFirst : IShareTrustedParticipantRepository :=
  { satelliteAr := sampleAr,
    trustedFingerprints := [],
    tokenFunc := fun _ => ("access", HttpError.zero),
    trustedListParserFunc := fun _ => ({ trustedList := none }, HttpError.zero),
    partyParseFunc := fun _ => ({ partyInfo := some partyBadFirst }, HttpError.zero) }

/-- A repository whose party parser yields `partyGoodFirst`. -/
def icrPartyGoodFirst : IShareTrustedParticipantRepository :=
  { satelliteAr := sampleAr,
    trustedFingerprints := [],
    tokenFunc := fun _ => ("access", HttpError.zero),
    trustedListParserFunc := fun _ => ({ trustedList := none }, HttpError.zero),
    partyParseFunc := fun _ => ({ partyInfo := some partyGoodFirst }, HttpError.zero) }

/-- Witness for C4: the party's single well-formed certificate parses
back to the client certificate, so the scan finds a match and
`IsTrusted` is `true`. -/
theorem IsTrusted_eq_any_match_witness :
    getTrustedParty icrPartyGood partyWorld "EU.EORI.NL000000001"
        = (some partyGood, HttpError.zero)
    ∧ IsTrusted icrPartyGood partyWorld matchingCaps { raw := [] } { raw := [1] }
        "EU.EORI.NL000000001"
        = partyGood.certificates.any
            (fun c => parsedFingerprint matchingCaps c
                        == some (buildCertificateFingerprint { raw := [1] }))
    ∧ IsTrusted icrPartyGood partyWorld matchingCaps { raw := [] } { raw := [1] }
        "EU.EORI.NL000000001" = true := by
  have h2 : getTrustedParty icrPartyGood partyWorld "EU.EORI.NL000000001"
      = (some partyGood, HttpError.zero) := by decide
  have h3 : ∀ c ∈ partyGood.certificates, (parsedFingerprint matchingCaps c).isSome := by
    simp [partyGood, parsedFingerprint, matchingCaps]
  have hmain := IsTrusted_eq_any_match icrPartyGood partyWorld matchingCaps
    { raw := [] } { raw := [1] } "EU.EORI.NL000000001" partyGood rfl h2 h3
  refine ⟨h2, hmain, hmain.trans ?_⟩
  simp [partyGood, parsedFingerprint, matchingCaps, some_beq_some]

/-- Witness for C5: the party's first certificate fails to decode, so
`IsTrusted` is `false` even though its second certificate would match
the client. -/
theorem IsTrusted_false_of_malformed_certificate_witness :
    getTrustedParty icrPartyBadFirst partyWorld "EU.EORI.NL000000001"
        = (some partyBadFirst, HttpError.zero)
    ∧ matchingCaps.decodeBase64 "bad" = none
    ∧ parsedFingerprint matchingCaps { x5c := "good" }
        = some (buildCertificateFingerprint { raw := [1] })
    ∧ IsTrusted icrPartyBadFirst partyWorld matchingCaps { raw := [] } { raw := [1] }
        "EU.EORI.NL000000001" = false := by
  have h2 : getTrustedParty icrPartyBadFirst partyWorld "EU.EORI.NL000000001"
      = (some partyBadFirst, HttpError.zero) := by decide
  refine ⟨h2, rfl, rfl, ?_⟩
  exact IsTrusted_false_of_malformed_certificate icrPartyBadFirst partyWorld matchingCaps
    { raw := [] } { raw := [1] } "EU.EORI.NL000000001" partyBadFirst
    [] { x5c := "bad" } [{ x5c := "good" }] rfl h2 rfl (by simp) (Or.inl rfl)

/-- Witness for C10: the party's first certificate matches the client,
so `IsTrusted` is `true` although the second certificate is malformed —
the loop never reaches it. -/
theorem IsTrusted_true_of_first_match_witness :
    getTrustedParty icrPartyGoodFirst partyWorld "EU.EORI.NL000000001"
        = (some partyGoodFirst, HttpError.zero)
    ∧ matchingCaps.decodeBase64 "bad" = none
    ∧ IsTrusted icrPartyGoodFirst partyWorld matchingCaps { raw := [] } { raw := [1] }
        "EU.EORI.NL000000001" = true := by
  have h2 : getTrustedParty icrPartyGoodFirst partyWorld "EU.EORI.NL000000001"
      = (some partyGoodFirst, HttpError.zero) := by decide
  refine ⟨h2, rfl, ?_⟩
  exact IsTrusted_true_of_first_match icrPartyGoodFirst partyWorld matchingCaps
    { raw := [] } { raw := [1] } "EU.EORI.NL000000001" partyGoodFirst
    [] { x5c := "good" } [{ x5c := "bad" }] rfl h2 rfl (by simp) rfl

/-! ## Role-claim evaluator theorems -/

/-- When no claim is named `"roles"`, the scan leaves the zero-valued
claim. -/
theorem findRoleClaim_of_absent (claims : List Claim)
    (h : ∀ c ∈ claims, c.name ≠ "roles") :
    findRoleClaim claims = { name := "", allowedValues := [] } := by
  induction claims with
  | nil => rfl
  | cons c rest ih =>
    have hne : c.name ≠ "roles" := h c (by simp)
    rw [findRoleClaim, if_neg (by simpa using hne)]
    exact ih fun x hx => h x (by simp [hx])

/-- When some claim is named `"roles"`, the scan returns a claim named
`"roles"`. -/
theorem findRoleClaim_name (claims : List Claim)
    (h : ∃ c ∈ claims, c.name = "roles") :
    (findRoleClaim claims).name = "roles" := by
  induction claims with
  | nil => simp at h
  | cons c rest ih =>
    by_cases hc : c.name = "roles"
    · rw [findRoleClaim, if_pos (by simpa using hc)]
      exact hc
    · rw [findRoleClaim, if_neg (by simpa using hc)]
      apply ih
      rcases h with ⟨x, hx, hname⟩
      rcases List.mem_cons.mp hx with rfl | hx'
      · exact absurd hname hc
      · exact ⟨x, hx', hname⟩

/-- When every subject role is in the allow-list, the role loop reaches
its positive end. -/
theorem checkRoles_all_covered (roleClaim : Claim) (roles : List String)
    (h : ∀ r ∈ roles, contains roleClaim.allowedValues r = true) :
    checkRoles roleClaim roles
      = { decision := true, reason := "Role claims allowed." } := by
  induction roles with
  | nil => rfl
  | cons r rest ih =>
    have hr := h r (by simp)
    rw [checkRoles, if_neg (by simp [hr])]
    exact ih fun x hx => h x (by simp [hx])

/-- The role loop denies at the first role not contained in the
allow-list, citing exactly that role. -/
theorem checkRoles_first_uncovered (roleClaim : Claim) (pre post : List String)
    (r : String)
    (hpre : ∀ x ∈ pre, contains roleClaim.allowedValues x = true)
    (hr : contains roleClaim.allowedValues r = false) :
    checkRoles roleClaim (pre ++ r :: post)
      = { decision := false,
          reason := "Role " ++ r ++ " is not coverd by the roles-claim capability "
                      ++ prettyPrintObject roleClaim ++ "." } := by
  induction pre with
  | nil =>
    rw [List.nil_append, checkRoles, if_pos (by simp [hr])]
  | cons x pre ih =>
    have hx := hpre x (by simp)
    rw [List.cons_append, checkRoles, if_neg (by simp [hx])]
    exact ih fun y hy => hpre y (by simp [hy])

/-- C7: the four-case behaviour of `Verify` (the reason strings are the
source's exact messages).  With no claim named `"roles"`, the decision
is the permit "No restrictions for roles exist."; with a `"roles"` claim
whose allow-list is empty, the decision is negative whatever the
subject's roles; with a non-empty allow-list covering every subject
role, the decision is the permit "Role claims allowed."; and when the
subject's roles split as `pre ++ r :: post` with `pre` covered and `r`
uncovered — `r` is the first uncovered role — the decision is negative
and cites `r`. -/
theorem Verify_role_evaluation (claims : List Claim)
    (credentialSubject : CustomerCredentialSubject) :
    ((∀ c ∈ claims, c.name ≠ "roles") →
        Verify claims credentialSubject
          = ({ decision := true, reason := "No restrictions for roles exist." },
             HttpError.zero))
    ∧ ((∃ c ∈ claims, c.name = "roles") → (findRoleClaim claims).allowedValues = [] →
        Verify claims credentialSubject
          = ({ decision := false,
               reason := "Claim " ++ prettyPrintObject (findRoleClaim claims)
                           ++ " does not allow any role assignment." },
             HttpError.zero))
    ∧ ((∃ c ∈ claims, c.name = "roles") → (findRoleClaim claims).allowedValues ≠ [] →
        (∀ r ∈ credentialSubject.roles,
            contains (findRoleClaim claims).allowedValues r = true) →
        Verify claims credentialSubject
          = ({ decision := true, reason := "Role claims allowed." }, HttpError.zero))
    ∧ (∀ pre r post, credentialSubject.roles = pre ++ r :: post →
        (∃ c ∈ claims, c.name = "roles") → (findRoleClaim claims).allowedValues ≠ [] →
        (∀ x ∈ pre, contains (findRoleClaim claims).allowedValues x = true) →
        contains (findRoleClaim claims).allowedValues r = false →
        Verify claims credentialSubject
          = ({ decision := false,
               reason := "Role " ++ r ++ " is not coverd by the roles-claim capability "
                           ++ prettyPrintObject (findRoleClaim claims) ++ "." },
             HttpError.zero)) := by
  refine ⟨?_, ?_, ?_, ?_⟩
  · intro h
    simp [Verify, findRoleClaim_of_absent claims h]
  · intro hex hemp
    have hname := findRoleClaim_name claims hex
    simp [Verify, hname, hemp]
  · intro hex hne hcov
    have hname := findRoleClaim_name claims hex
    have hlen : (findRoleClaim claims).allowedValues.length ≠ 0 :=
      fun hl => hne (List.length_eq_zero.mp hl)
    simp only [Verify, hname]
    rw [if_neg (by simp), if_neg (by simpa using hlen),
      checkRoles_all_covered _ _ hcov]
  · intro pre r post hroles hex hne hpre hr
    have hname := findRoleClaim_name claims hex
    have hlen : (findRoleClaim claims).allowedValues.length ≠ 0 :=
      fun hl => hne (List.length_eq_zero.mp hl)
    simp only [Verify, hname]
    rw [if_neg (by simp), if_neg (by simpa using hlen), hroles,
      checkRoles_first_uncovered _ _ _ _ hpre hr]

/-- The spec scenario's claim `{name:"roles", allowed:["admin","buyer"]}`. -/
def rolesClaimSample : Claim := { name := "roles", allowedValues := ["admin", "buyer"] }

/-- Witness for C7: subject roles `["buyer"]` are allowed under
`rolesClaimSample`, and with roles `["buyer", "auditor"]` the decision
is negative. -/
theorem Verify_role_evaluation_witness :
    Verify [rolesClaimSample] { roles := ["buyer"] }
        = ({ decision := true, reason := "Role claims allowed." }, HttpError.zero)
    ∧ (Verify [rolesClaimSample] { roles := ["buyer", "auditor"] }).1.decision = false := by
  constructor
  · exact (Verify_role_evaluation [rolesClaimSample] { roles := ["buyer"] }).2.2.1
      ⟨rolesClaimSample, by simp, rfl⟩ (by decide) (by decide)
  · rw [(Verify_role_evaluation [rolesClaimSample]
      { roles := ["buyer", "auditor"] }).2.2.2 ["buyer"] "auditor" [] rfl
      ⟨rolesClaimSample, by simp, rfl⟩ (by decide) (by decide) (by decide)]

/-- The denial reason of the role loop is never the empty string. -/
theorem checkRoles_reason_length (roleClaim : Claim) :
    ∀ roles : List String, (checkRoles roleClaim roles).reason.length ≠ 0
  | [] => by rw [checkRoles]; decide
  | r :: rest => by
    cases hcon : contains roleClaim.allowedValues r with
    | true =>
      have ih := checkRoles_reason_length roleClaim rest
      rw [checkRoles, if_neg (by simp [hcon])]
      exact ih
    | false =>
      rw [checkRoles, if_pos (by simp [hcon])]
      show ("Role " ++ r ++ " is not coverd by the roles-claim capability "
              ++ prettyPrintObject roleClaim ++ ".").length ≠ 0
      rw [String.length_append, String.length_append, String.length_append,
        String.length_append]
      have h5 : "Role ".length = 5 := rfl
      omega

/-- C9: `Verify` is total on every input and its error component always
equals the zero-valued `HttpError`; every outcome, the negative ones
included, is a `Decision` carrying a non-empty explanatory reason, never
an error value. -/
theorem Verify_no_error (claims : List Claim)
    (credentialSubject : CustomerCredentialSubject) :
    (Verify claims credentialSubject).2 = HttpError.zero
    ∧ (Verify claims credentialSubject).1.reason.length ≠ 0 := by
  unfold Verify
  by_cases h1 : (findRoleClaim claims).name = ""
  · rw [if_pos (by simpa using h1)]
    exact ⟨rfl, by decide⟩
  · rw [if_neg (by simpa using h1)]
    by_cases h2 : (findRoleClaim claims).allowedValues.length = 0
    · rw [if_pos (by simpa using h2)]
      refine ⟨rfl, ?_⟩
      show ("Claim " ++ prettyPrintObject (findRoleClaim claims)
              ++ " does not allow any role assignment.").length ≠ 0
      rw [String.length_append, String.length_append]
      have h6 : "Claim ".length = 6 := rfl
      omega
    · rw [if_neg (by simpa using h2)]
      exact ⟨rfl, checkRoles_reason_length _ _⟩

/-- Witness for C9 at a concrete input. -/
theorem Verify_no_error_witness :
    (Verify [rolesClaimSample] { roles := ["auditor"] }).2 = HttpError.zero :=
  (Verify_no_error [rolesClaimSample] { roles := ["auditor"] }).1

end DsbaPdp
